import Mathlib

/-!
Verification of the w3up-python repository: a shallow Lean embedding of its
result/schema libraries (src/w3up/ucanto/core/schema/result.py and
schema.py) and of the UCAN capability-validation engine whose data model and
interfaces are declared in src/w3up/ucanto/core/interfaces/capabilities.py.
The validator, parser and prune bodies are interface stubs in the source, so
those operations are modelled from the specification (spec.md sections 4.1,
4.2 and 7), as marked in the doc comment of each such definition.
-/

namespace W3up

/-! ## Python value model -/

/-- Model of the Python runtime values that the result and schema libraries
operate on: None, booleans, integers, strings, lists, dicts (ordered
key-value pairs, since Python dicts preserve insertion order) and Failure
exception instances carrying their message. -/
inductive PyVal where
  | none
  | bool (b : Bool)
  | int (n : Int)
  | str (s : String)
  | list (xs : List PyVal)
  | dict (entries : List (PyVal × PyVal))
  | failure (message : String)

/-- Whether a Python value is None (the test `value is None`). -/
def PyVal.isNone : PyVal → Bool
  | .none => true
  | _ => false

/-- Whether a Python value is a list (`isinstance(value, list)`). -/
def PyVal.isList : PyVal → Bool
  | .list _ => true
  | _ => false

/-- Whether a Python value is a dict (`isinstance(value, dict)`). -/
def PyVal.isDict : PyVal → Bool
  | .dict _ => true
  | _ => false

/-- Python exceptions that the result constructors can raise: `TypeError`
for a missing payload, and the `Failure` exception class of result.py. -/
inductive PyExn where
  | typeError (message : String)
  | failureExn (message : String)

/-! ## result.py -/

/-- Embedding of `ok` (result.py lines 28-34): raises `TypeError` when the
value is None, otherwise returns the one-entry dict mapping "ok" to the
value. -/
def ok (value : PyVal) : Except PyExn PyVal :=
  match value with
  | .none => .error (.typeError "ok(None) is not allowed, consider ok(\x7b\x7d) instead")
  | v => .ok (.dict [(.str "ok", v)])

/-- Embedding of `error` (result.py lines 37-45): raises `TypeError` when
the cause is None, otherwise returns the one-entry dict mapping "error" to
the cause. -/
def error (cause : PyVal) : Except PyExn PyVal :=
  match cause with
  | .none => .error (.typeError "error(None) is not allowed, consider passing an error instead")
  | c => .ok (.dict [(.str "error", c)])

/-- Embedding of `fail` (result.py lines 55-56): returns the one-entry dict
mapping "error" to a `Failure` carrying the message; it never raises. -/
def fail (message : String) : PyVal :=
  .dict [(.str "error", .failure message)]

/-! ## schema.py -/

/-- The `SchemaError` hierarchy of schema.py, carrying the structured data
each subclass stores (`TypeError_.expect/actual`, `UnionError.causes`,
`ElementError.index/cause`, `FieldError.key/cause`); the human-readable
message each constructor formats from these fields is not re-modelled. -/
inductive SchemaError where
  | typeError (expect : String) (actual : PyVal)
  | unionError (causes : List SchemaError)
  | elementError (index : Nat) (cause : SchemaError)
  | fieldError (key : PyVal) (cause : SchemaError)

/-- A schema's `read` method: either a validated value (a `Result` whose
`ok` field is set, where `Result(ok=None)` is modelled as `.ok .none`) or a
`SchemaError` (a `Result` whose `error` field is set). -/
abbrev Reader := PyVal → Except SchemaError PyVal

/-- The value of a read result, defaulting to None on error (used only to
state which values a successful ArrayOf read collects). -/
def readValue : Except SchemaError PyVal → PyVal
  | .ok v => v
  | .error _ => .none

/-- The element loop of `ArrayOf.read_with` (schema.py lines 164-169):
validates elements left to right, returning `ElementError` with the current
index and the cause at the first failing element, otherwise appending each
validated value in order. -/
def arrayGo (schema : Reader) : Nat → List PyVal → Except SchemaError (List PyVal)
  | _, [] => .ok []
  | index, x :: rest =>
    match schema x with
    | .error e => .error (.elementError index e)
    | .ok v =>
      match arrayGo schema (index + 1) rest with
      | .error e => .error e
      | .ok vs => .ok (v :: vs)

/-- Embedding of `ArrayOf.read_with` (schema.py lines 160-170): a non-list
input is rejected with `TypeError_("array", input)`, a list is validated
element by element. -/
def arrayReadWith (schema : Reader) (input : PyVal) : Except SchemaError PyVal :=
  match input with
  | .list xs => (arrayGo schema 0 xs).map PyVal.list
  | other => .error (.typeError "array" other)

/-- The entry loop of `Dictionary.read_with` (schema.py lines 187-199): for
each key-value pair, reads the key with the key schema and the value with
the value schema, wrapping the first failure in `FieldError` keyed by the
original key; a validated value of None is dropped, any other validated
value is stored under the validated key. -/
def dictGo (keyS valS : Reader) : List (PyVal × PyVal) → Except SchemaError (List (PyVal × PyVal))
  | [] => .ok []
  | (k, v) :: rest =>
    match keyS k with
    | .error e => .error (.fieldError k e)
    | .ok kOk =>
      match valS v with
      | .error e => .error (.fieldError k e)
      | .ok vOk =>
        match dictGo keyS valS rest with
        | .error e => .error e
        | .ok out => .ok (if vOk.isNone then out else (kOk, vOk) :: out)

/-- Embedding of `Dictionary.read_with` (schema.py lines 183-200): a
non-dict input is rejected with `TypeError_("dictionary", input)`, a dict
is validated entry by entry. -/
def dictionaryReadWith (keyS valS : Reader) (input : PyVal) : Except SchemaError PyVal :=
  match input with
  | .dict entries => (dictGo keyS valS entries).map PyVal.dict
  | other => .error (.typeError "dictionary" other)

/-- Embedding of `Optional_.read_with` (schema.py lines 147-151): None
validates to None, anything else is delegated to the wrapped reader (the
`result.error and input_value is None` guard on line 151 is unreachable
there because the None case has already returned). -/
def optionalReadWith (reader : Reader) (input : PyVal) : Except SchemaError PyVal :=
  match input with
  | .none => .ok .none
  | v => reader v

/-- Embedding of `String.read_with` (schema.py lines 295-298). -/
def stringReadWith (input : PyVal) : Except SchemaError PyVal :=
  match input with
  | .str s => .ok (.str s)
  | other => .error (.typeError "string" other)

/-! ## Capability model (interfaces/capabilities.py) -/

/-- A decentralized identifier naming a principal (capabilities.py `DID = str`). -/
abbrev DID := String

/-- An ability string such as "store/add" (capabilities.py `Ability = str`). -/
abbrev Ability := String

/-- A resource URI (capabilities.py `Resource = str`). -/
abbrev ResourceURI := String

/-- Raw capability data (capabilities.py `Capability`): an ability, a
resource, and optional caveats, the caveats modelled as a finite map from
caveat names to integer values. -/
structure Capability where
  can : Ability
  with_ : ResourceURI
  nb : Option (List (String × Int))
deriving DecidableEq

/-- A parsed capability (capabilities.py `ParsedCapability`): the
semantically typed form produced by a capability parser, with decoded
caveats. -/
structure ParsedCapability where
  can : Ability
  with_ : ResourceURI
  nb : List (String × Int)
deriving DecidableEq

mutual
/-- A delegation (interfaces/base.py `Delegation`): a content-addressed
(`cid`) signed grant of capabilities from an issuer to an audience, with a
validity window and further proofs; signature bytes are out of this core's
scope (spec section 6) and are not modelled. -/
inductive Delegation where
  | mk (cid : Nat) (issuer : DID) (audience : DID)
       (capabilities : List Capability)
       (expiration : Int) (notBefore : Option Int)
       (proofs : List Proof)

/-- A proof backing a delegation (spec section 3): an inline delegation or
an opaque content-addressed link that must be resolved. -/
inductive Proof where
  | inline (d : Delegation)
  | link (cid : Nat)
end

def Delegation.cid : Delegation → Nat
  | .mk c _ _ _ _ _ _ => c

def Delegation.issuer : Delegation → DID
  | .mk _ i _ _ _ _ _ => i

def Delegation.audience : Delegation → DID
  | .mk _ _ a _ _ _ _ => a

def Delegation.capabilities : Delegation → List Capability
  | .mk _ _ _ caps _ _ _ => caps

def Delegation.expiration : Delegation → Int
  | .mk _ _ _ _ e _ _ => e

def Delegation.notBefore : Delegation → Option Int
  | .mk _ _ _ _ _ nb _ => nb

def Delegation.proofs : Delegation → List Proof
  | .mk _ _ _ _ _ _ ps => ps

/-- A validated proof tree (capabilities.py `Authorization`): the
delegation, the validated capability, the authorizations of its proofs, and
the delegation's principals. -/
inductive Authorization where
  | mk (delegation : Delegation) (capability : ParsedCapability)
       (proofs : List Authorization) (issuer : DID) (audience : DID)

def Authorization.delegation : Authorization → Delegation
  | .mk d _ _ _ _ => d

def Authorization.capability : Authorization → ParsedCapability
  | .mk _ c _ _ _ => c

def Authorization.proofs : Authorization → List Authorization
  | .mk _ _ ps _ _ => ps

/-! ## Error taxonomy (capabilities.py and spec section 7) -/

/-- The two names an `InvalidCapability` may carry (capabilities.py line
183). -/
inductive InvalidCapName where
  | unknownCapability
  | malformedCapability
deriving DecidableEq

/-- capabilities.py `InvalidCapability`: an invalid-capability failure with
its name and the offending raw capability. -/
structure InvalidCapability where
  name : InvalidCapName
  capability : Capability
deriving DecidableEq

/-- The cause wrapped by a `DelegationError` (capabilities.py lines
188-193): an invalid capability or an escalation of the claimed capability
beyond what was delegated. -/
inductive DelegationErrorCause where
  | invalidCapability (e : InvalidCapability)
  | escalatedDelegation (claimed : ParsedCapability) (delegated : ParsedCapability)
deriving DecidableEq

/-- capabilities.py `DelegationError` (name "InvalidClaim"): a capability
level failure on one proof path, wrapping its cause. -/
structure DelegationError where
  cause : DelegationErrorCause
deriving DecidableEq

/-- A proof-level failure recorded in `Unauthorized.invalid_proofs` (spec
section 7 taxonomy): an unresolvable link (`UnavailableProof`), an
audience/issuer chain mismatch (`InvalidAudience`), a time-window
violation, or the recursion depth bound of spec section 9. -/
inductive InvalidProof where
  | unavailableProof (link : Nat)
  | invalidAudience (delegationCid : Nat) (expected : DID) (found : DID)
  | expired (delegationCid : Nat)
  | notValidBefore (delegationCid : Nat)
  | depthExceeded (delegationCid : Nat)
deriving DecidableEq

mutual
/-- capabilities.py `Unauthorized` (lines 213-221): the top-level aggregate
failure with its four lists of recorded failures. -/
inductive Unauthorized where
  | mk (delegation_errors : List DelegationError)
       (unknown_capabilities : List Capability)
       (invalid_proofs : List InvalidProof)
       (failed_proofs : List InvalidClaim)

/-- An `InvalidClaim` entry of `Unauthorized.failed_proofs`: the recursive
validation failure of one proof delegation, keyed by its cid. -/
inductive InvalidClaim where
  | mk (delegationCid : Nat) (cause : Unauthorized)
end

def Unauthorized.delegation_errors : Unauthorized → List DelegationError
  | .mk de _ _ _ => de

def Unauthorized.unknown_capabilities : Unauthorized → List Capability
  | .mk _ uc _ _ => uc

def Unauthorized.invalid_proofs : Unauthorized → List InvalidProof
  | .mk _ _ ip _ => ip

def Unauthorized.failed_proofs : Unauthorized → List InvalidClaim
  | .mk _ _ _ fp => fp

def InvalidClaim.delegationCid : InvalidClaim → Nat
  | .mk c _ => c

/-! ## Validation options (capabilities.py `ValidationOptions`) -/

/-- The capability parser policy a service registers (spec section 4.1):
how a raw capability is parsed into a typed value, and the narrowing rule
table deciding whether a delegated capability covers a claimed one (spec
section 4.2 escalation policy, supplied by the capability's own parser). -/
structure CapabilityPolicy where
  parse : Capability → Except InvalidCapability ParsedCapability
  covers : ParsedCapability → ParsedCapability → Bool

/-- Checked validation options: the capability policy, the principal
normalizer (`PrincipalParser`, spec invariant 1 compares normalized DIDs),
the `CanIssue` policy hook, the proof resolver (returning none when a link
cannot be resolved, modelling `Result[Delegation, UnavailableProof]`), and
the validation time. -/
structure ValidationOptions where
  capability : CapabilityPolicy
  principal : DID → DID
  canIssue : ParsedCapability → DID → Bool
  resolve : Nat → Option Delegation
  now : Int

/-- capabilities.py `ValidationOptions` as constructed by a caller (lines
262-270): the capability parser may be absent (misconfiguration), and
`can_issue` and `resolver` are optional with `None` defaults. -/
structure RawValidationOptions where
  capability : Option CapabilityPolicy
  principal : DID → DID
  canIssue : Option (ParsedCapability → DID → Bool)
  resolve : Option (Nat → Option Delegation)
  now : Int

/-! ## Validator algorithm, modelled from the spec -/

/-- The partition `Select` (capabilities.py lines 70-76): matched values,
capability-level errors, and unknown capabilities. -/
structure SelectR where
  matched : List ParsedCapability
  capErrors : List DelegationError
  unknown : List Capability

/-- Modelled from the spec: `Selector.select` applied across all
capabilities of a delegation (spec section 4.1) — the select body is an
interface stub in capabilities.py. Each raw capability is parsed; an
`UnknownCapability` goes to `unknown`, a `MalformedCapability` becomes a
`DelegationError`, a parsed value covering the claim is a match, and a
parsed value not covering the claim is recorded as an escalation error. -/
def selectCaps (opts : ValidationOptions) (claim : ParsedCapability)
    (caps : List Capability) : SelectR where
  matched := caps.filterMap (fun c =>
    match opts.capability.parse c with
    | .ok v => if opts.capability.covers claim v then some v else none
    | .error _ => none)
  capErrors := caps.filterMap (fun c =>
    match opts.capability.parse c with
    | .ok v =>
      if opts.capability.covers claim v then none
      else some ⟨.escalatedDelegation claim v⟩
    | .error e =>
      if e.name = InvalidCapName.malformedCapability then
        some ⟨.invalidCapability e⟩
      else none)
  unknown := caps.filterMap (fun c =>
    match opts.capability.parse c with
    | .ok _ => none
    | .error e => if e.name = InvalidCapName.unknownCapability then some c else none)

/-- Modelled from the spec: the time-validity check of spec invariant 2,
`now ∈ [not_before, expiration)`. -/
def timeValid (d : Delegation) (now : Int) : Bool :=
  (match d.notBefore with
   | .none => true
   | .some nb => decide (nb ≤ now)) && decide (now < d.expiration)

/-- The proof-level failure recorded for a time-invalid delegation. -/
def timeFailureOf (d : Delegation) (now : Int) : InvalidProof :=
  if d.expiration ≤ now then .expired d.cid else .notValidBefore d.cid

/-- The outcome of walking one proof branch: an authorization, or exactly
one recorded failure (proof-level on the left, recursive on the right). -/
abbrev BranchResult := Except (InvalidProof ⊕ InvalidClaim) Authorization

/-- Wraps a recursive validation outcome of a proof delegation as a branch
result, turning an `Unauthorized` into an `InvalidClaim` entry. -/
def liftResult (pd : Delegation) : Except Unauthorized Authorization → BranchResult
  | .ok a => .ok a
  | .error u => .error (.inr (.mk pd.cid u))

/-- Modelled from the spec: the audience/issuer chaining check and the
recursion into a resolved proof delegation (spec section 4.2 step 2c). -/
def tryDelegation (recurse : Delegation → BranchResult) (opts : ValidationOptions)
    (d : Delegation) (pd : Delegation) : BranchResult :=
  if opts.principal pd.audience = opts.principal d.issuer then recurse pd
  else .error (.inl (.invalidAudience pd.cid (opts.principal d.issuer) (opts.principal pd.audience)))

/-- Modelled from the spec: walking one proof of a delegation (spec section
4.2 step 2c) — the validator body is an interface stub in capabilities.py.
A link is resolved via the resolver, failing with `UnavailableProof`; the
proof's audience must be the delegation's issuer under the principal
normalizer (invariant 1), failing with `InvalidAudience`; otherwise the
proof delegation is validated recursively via `recurse`. -/
def tryBranch (recurse : Delegation → BranchResult) (opts : ValidationOptions)
    (d : Delegation) (p : Proof) : BranchResult :=
  match p with
  | .link cid =>
    match opts.resolve cid with
    | .none => .error (.inl (.unavailableProof cid))
    | .some pd => tryDelegation recurse opts d pd
  | .inline pd => tryDelegation recurse opts d pd

/-- The first successful authorization among the branch results, if any
(the deterministic left-to-right choice of spec section 4.2 step 4). -/
def firstOkAuth : List BranchResult → Option Authorization
  | [] => .none
  | .ok a :: _ => .some a
  | .error _ :: rest => firstOkAuth rest

/-- The `InvalidProof` failures among the branch results, in branch order. -/
def invalidProofsOf (rs : List BranchResult) : List InvalidProof :=
  rs.filterMap (fun r =>
    match r with
    | .error (.inl ip) => some ip
    | _ => none)

/-- The `InvalidClaim` failures among the branch results, in branch order. -/
def failedProofsOf (rs : List BranchResult) : List InvalidClaim :=
  rs.filterMap (fun r =>
    match r with
    | .error (.inr ic) => some ic
    | _ => none)

/-- Modelled from the spec: one layer of the validation algorithm of spec
section 4.2 — the `Validator.validate` body is an interface stub in
capabilities.py. Step 1 partitions the delegation's capabilities; with no
match the aggregated capability failures are returned. For a match, step 2a
checks time validity (terminal for the branch), step 2b accepts a
self-authoritative issuer per `CanIssue` as a terminal `Authorization` with
no proofs, and step 2c walks every proof via `recurse`, never
short-circuiting: all branch failures are aggregated into `Unauthorized`
when no branch succeeds (steps 3 and 4). -/
def validateStep (claim : ParsedCapability) (opts : ValidationOptions)
    (recurse : Delegation → BranchResult) (d : Delegation) :
    Except Unauthorized Authorization :=
  let sel := selectCaps opts claim d.capabilities
  match sel.matched with
  | [] => .error (.mk sel.capErrors sel.unknown [] [])
  | v :: _ =>
    if timeValid d opts.now then
      if opts.canIssue claim d.issuer then
        .ok (.mk d v [] d.issuer d.audience)
      else
        let results := d.proofs.map (tryBranch recurse opts d)
        match firstOkAuth results with
        | .some a => .ok (.mk d v [a] d.issuer d.audience)
        | .none =>
          .error (.mk sel.capErrors sel.unknown
            (invalidProofsOf results) (failedProofsOf results))
    else .error (.mk sel.capErrors sel.unknown [timeFailureOf d opts.now] [])

/-- Modelled from the spec: the recursive validation algorithm of spec
section 4.2, with the explicit maximum-depth bound required by spec section
9 as a fuel parameter — exhausting the bound records a `depthExceeded`
failure on that branch instead of recursing. -/
def validate (claim : ParsedCapability) (opts : ValidationOptions) :
    Nat → Delegation → Except Unauthorized Authorization
  | 0, d =>
    validateStep claim opts (fun pd => .error (.inl (.depthExceeded pd.cid))) d
  | fuel + 1, d =>
    validateStep claim opts (fun pd => liftResult pd (validate claim opts fuel pd)) d

/-- The branch result of one proof of a delegation at a given remaining
depth, as computed inside `validate` at depth `fuel + 1`. -/
def branchOf (claim : ParsedCapability) (opts : ValidationOptions) (fuel : Nat)
    (d : Delegation) (p : Proof) : BranchResult :=
  tryBranch (fun pd => liftResult pd (validate claim opts fuel pd)) opts d p

/-! ## Checked entry point (spec section 7 propagation policy) -/

/-- What the validation entry point may raise (model of Python exception
unwinding): a misconfiguration failure, or one of the section-7 taxonomy
errors — the latter constructors exist so that the propagation policy
(taxonomy errors are never thrown) is an assertable property. -/
inductive Thrown where
  | misconfiguration (message : String)
  | thrownInvalidCapability (e : InvalidCapability)
  | thrownDelegationError (e : DelegationError)
  | thrownInvalidProof (e : InvalidProof)
  | thrownUnauthorized (u : Unauthorized)

/-- Modelled from the spec: completing raw options into checked options.
A missing capability parser is the fatal misconfiguration of spec section
7; an absent `can_issue` defaults to never self-authoritative and an
absent `resolver` leaves every link unavailable. -/
def checkOptions (raw : RawValidationOptions) : Except Thrown ValidationOptions :=
  match raw.capability with
  | .none => .error (.misconfiguration "ValidationOptions is missing the required capability parser")
  | .some pol =>
    .ok { capability := pol
          principal := raw.principal
          canIssue := raw.canIssue.getD (fun _ _ => false)
          resolve := raw.resolve.getD (fun _ => .none)
          now := raw.now }

/-- Modelled from the spec: the validation entry point over raw options.
The outer `Except Thrown` models Python exception unwinding; every
authorization outcome is delivered inside the value channel. -/
def validateChecked (claim : ParsedCapability) (raw : RawValidationOptions)
    (fuel : Nat) (d : Delegation) :
    Except Thrown (Except Unauthorized Authorization) :=
  (checkOptions raw).map (fun opts => validate claim opts fuel d)

/-! ## Capability parser and prune, modelled from the spec -/

/-- A capability descriptor registered for one ability namespace (spec
sections 4.1 and 6): the recognized ability string, the structural decoder
of the resource field, and the structural decoder of the caveats. -/
structure Descriptor where
  can : Ability
  readWith : ResourceURI → Bool
  readNb : Option (List (String × Int)) → Option (List (String × Int))

/-- Modelled from the spec: `CapabilityParser.parse` (spec section 4.1) —
the parse body is an interface stub in capabilities.py. An unrecognized
ability fails with `UnknownCapability`; a recognized ability whose resource
or caveats fail structural decoding fails with `MalformedCapability`;
otherwise the typed `ParsedCapability` is produced. -/
def parseCapability (desc : Descriptor) (c : Capability) :
    Except InvalidCapability ParsedCapability :=
  if c.can = desc.can then
    if desc.readWith c.with_ then
      match desc.readNb c.nb with
      | .some nb => .ok ⟨c.can, c.with_, nb⟩
      | .none => .error ⟨.malformedCapability, c⟩
    else .error ⟨.malformedCapability, c⟩
  else .error ⟨.unknownCapability, c⟩

/-- One constituent match of a `Match` (capabilities.py lines 47-53): the
parsed value together with the delegation that carried it (its terminal
proof). -/
structure SubMatch where
  value : ParsedCapability
  delegation : Delegation

/-- Modelled from the spec: a terminal self-delegation (spec section 4.1,
"matches whose terminal proof is a self-delegation") — a delegation with no
further proofs whose issuer equals its audience, i.e. a self-grant backed
by nothing. -/
def terminalSelfDelegation (d : Delegation) : Bool :=
  d.proofs.isEmpty && decide (d.issuer = d.audience)

/-- Whether `CanIssue` rejects a constituent match as a fabricated
self-grant: its terminal proof is a self-delegation and `can_issue` denies
the issuer authority over the matched capability. -/
def rejectedBy (canIssue : ParsedCapability → DID → Bool) (sm : SubMatch) : Bool :=
  terminalSelfDelegation sm.delegation && !canIssue sm.value sm.delegation.issuer

/-- A match as a group of constituent matches, the form `Match.prune`
filters (capabilities.py lines 47-57). -/
structure MatchGroup where
  matched : List SubMatch

/-- Modelled from the spec: `Match.prune` (spec section 4.1) — the prune
body is an interface stub in capabilities.py (line 57). It removes the
constituent matches whose terminal proof is a self-delegation rejected by
`CanIssue`, and returns none when nothing survives pruning. -/
def MatchGroup.prune (m : MatchGroup) (canIssue : ParsedCapability → DID → Bool) :
    Option MatchGroup :=
  match m.matched.filter (fun sm => !rejectedBy canIssue sm) with
  | [] => .none
  | kept => .some ⟨kept⟩

/-! ## Theorems -/

/-- Claim C7: for every non-None value, `ok` returns the one-entry mapping
from "ok" to the value; for every non-None cause, `error` returns the
one-entry mapping from "error" to the cause; and `fail message` is the
one-entry mapping from "error" to a `Failure` carrying the message —
success and error payloads are stored under exactly these single keys. -/
theorem c7_result_single_key (v c : PyVal)
    (hv : v.isNone = false) (hc : c.isNone = false) :
    ok v = .ok (.dict [(.str "ok", v)]) ∧
    error c = .ok (.dict [(.str "error", c)]) ∧
    ∀ message : String, fail message = .dict [(.str "error", .failure message)] := by
  refine ⟨?_, ?_, fun _ => rfl⟩
  · cases v <;> first | rfl | simp [PyVal.isNone] at hv
  · cases c <;> first | rfl | simp [PyVal.isNone] at hc

/-- Witness for C7 at a concrete value and cause. -/
theorem c7_result_single_key_witness :
    ok (.int 1) = .ok (.dict [(.str "ok", .int 1)]) ∧
    error (.str "boom") = .ok (.dict [(.str "error", .str "boom")]) ∧
    ∀ message : String, fail message = .dict [(.str "error", .failure message)] :=
  c7_result_single_key (.int 1) (.str "boom") rfl rfl

/-- Claim C8: `ok` raises `TypeError` if and only if its argument is None,
`error` raises `TypeError` if and only if its argument is None, and on
every other argument both return normally. -/
theorem c8_result_none_rejected (v c : PyVal) :
    ((∃ m, ok v = .error (.typeError m)) ↔ v.isNone = true) ∧
    ((∃ m, error c = .error (.typeError m)) ↔ c.isNone = true) ∧
    (v.isNone = false → ∃ r, ok v = .ok r) ∧
    (c.isNone = false → ∃ r, error c = .ok r) := by
  refine ⟨?_, ?_, ?_, ?_⟩
  · cases v <;> simp [ok, PyVal.isNone]
  · cases c <;> simp [error, PyVal.isNone]
  · cases v <;> simp [ok, PyVal.isNone]
  · cases c <;> simp [error, PyVal.isNone]

/-- Witness for C8: None is rejected with TypeError, a non-None argument
returns normally. -/
theorem c8_result_none_rejected_witness :
    (∃ m, ok PyVal.none = .error (.typeError m)) ∧
    (∃ r, error (.int 0) = .ok r) :=
  ⟨(c8_result_none_rejected PyVal.none PyVal.none).1.mpr rfl,
   (c8_result_none_rejected (.int 0) (.int 0)).2.2.2 rfl⟩

/-- The element loop fails at the first failing element, at any starting
index, independently of the elements after it. -/
theorem arrayGo_first_failure (schema : Reader) (x : PyVal) (e : SchemaError)
    (hx : schema x = .error e) :
    ∀ (pre : List PyVal) (i : Nat) (post : List PyVal),
      (∀ y ∈ pre, ∃ v, schema y = .ok v) →
      arrayGo schema i (pre ++ x :: post) = .error (.elementError (i + pre.length) e)
  | [], i, post, _ => by simp [arrayGo, hx]
  | y :: pre, i, post, h => by
    obtain ⟨v, hv⟩ := h y (List.mem_cons_self y pre)
    have ih := arrayGo_first_failure schema x e hx pre (i + 1) post
      (fun z hz => h z (List.mem_cons_of_mem _ hz))
    have harith : i + 1 + pre.length = i + (pre.length + 1) := by omega
    simp [arrayGo, hv, ih, harith]

/-- The element loop succeeds with the validated values, in order, when
every element validates. -/
theorem arrayGo_all_ok (schema : Reader) :
    ∀ (xs : List PyVal) (i : Nat), (∀ y ∈ xs, ∃ v, schema y = .ok v) →
      arrayGo schema i xs = .ok (xs.map (fun y => readValue (schema y)))
  | [], _, _ => rfl
  | x :: xs, i, h => by
    obtain ⟨v, hv⟩ := h x (List.mem_cons_self x xs)
    have ih := arrayGo_all_ok schema xs (i + 1)
      (fun z hz => h z (List.mem_cons_of_mem _ hz))
    simp [arrayGo, hv, ih, readValue]

/-- Claim C9: `ArrayOf.read` rejects any non-list input with a type error
expecting "array"; on a list it validates elements left to right and the
first failing element yields an `ElementError` carrying that element's
index and cause, independently of everything after it; and it returns ok
with the validated element values, in input order, exactly when every
element validates. -/
theorem c9_array_read (schema : Reader) :
    (∀ input : PyVal, input.isList = false →
      arrayReadWith schema input = .error (.typeError "array" input)) ∧
    (∀ (pre : List PyVal) (x : PyVal) (e : SchemaError) (post : List PyVal),
      (∀ y ∈ pre, ∃ v, schema y = .ok v) → schema x = .error e →
      arrayReadWith schema (.list (pre ++ x :: post)) =
        .error (.elementError pre.length e)) ∧
    (∀ xs : List PyVal, (∀ y ∈ xs, ∃ v, schema y = .ok v) →
      arrayReadWith schema (.list xs) =
        .ok (.list (xs.map (fun y => readValue (schema y))))) := by
  refine ⟨?_, ?_, ?_⟩
  · intro input hinput
    cases input <;> first | rfl | simp [PyVal.isList] at hinput
  · intro pre x e post hpre hx
    have h := arrayGo_first_failure schema x e hx pre 0 post hpre
    simp [arrayReadWith, h, Except.map]
  · intro xs hxs
    have h := arrayGo_all_ok schema xs 0 hxs
    simp [arrayReadWith, h, Except.map]

/-- Witness for C9 with the String element schema: a non-list input, a list
whose second element fails, and a fully valid list. -/
theorem c9_array_read_witness :
    arrayReadWith stringReadWith (.int 5) = .error (.typeError "array" (.int 5)) ∧
    arrayReadWith stringReadWith (.list [.str "a", .int 3, .str "b"]) =
      .error (.elementError 1 (.typeError "string" (.int 3))) ∧
    arrayReadWith stringReadWith (.list [.str "a", .str "b"]) =
      .ok (.list [.str "a", .str "b"]) := by
  refine ⟨(c9_array_read stringReadWith).1 (.int 5) rfl, ?_, ?_⟩
  · have h := (c9_array_read stringReadWith).2.1 [.str "a"] (.int 3)
      (.typeError "string" (.int 3)) [.str "b"]
      (by intro y hy; simp at hy; subst hy; exact ⟨_, rfl⟩) rfl
    simpa using h
  · have h := (c9_array_read stringReadWith).2.2 [.str "a", .str "b"]
      (by intro y hy; simp at hy; rcases hy with h | h <;> subst h <;> exact ⟨_, rfl⟩)
    simpa [stringReadWith, readValue] using h

/-- The entry loop of Dictionary.read, on entries whose keys validate to
themselves and whose values all validate, keeps exactly the entries whose
validated value is not None, mapped to their validated values. -/
theorem dictGo_all_ok (keyS valS : Reader) :
    ∀ entries : List (PyVal × PyVal),
      (∀ p ∈ entries, keyS p.1 = .ok p.1) →
      (∀ p ∈ entries, ∃ v, valS p.2 = .ok v) →
      dictGo keyS valS entries = .ok (entries.filterMap (fun p =>
        match valS p.2 with
        | .ok v => if v.isNone then none else some (p.1, v)
        | .error _ => none))
  | [], _, _ => rfl
  | (k, v) :: rest, hk, hv => by
    obtain ⟨w, hw⟩ := hv (k, v) (List.mem_cons_self _ rest)
    have hkk := hk (k, v) (List.mem_cons_self _ rest)
    have ih := dictGo_all_ok keyS valS rest
      (fun p hp => hk p (List.mem_cons_of_mem _ hp))
      (fun p hp => hv p (List.mem_cons_of_mem _ hp))
    by_cases hnone : w.isNone = true
    · simp [dictGo, hkk, hw, ih, hnone]
    · simp [dictGo, hkk, hw, ih, Bool.eq_false_iff.mpr hnone]

/-- Claim C10: for every dict input whose keys and values all validate
(keys validating to themselves, as the String key schema does),
`Dictionary.read` returns ok with a mapping containing exactly those input
keys whose validated value is not None — an entry whose value schema
validates to None is silently dropped from the output rather than stored
as None. -/
theorem c10_dictionary_drops_none (keyS valS : Reader)
    (entries : List (PyVal × PyVal))
    (hk : ∀ p ∈ entries, keyS p.1 = .ok p.1)
    (hv : ∀ p ∈ entries, ∃ v, valS p.2 = .ok v) :
    dictionaryReadWith keyS valS (.dict entries) =
      .ok (.dict (entries.filterMap (fun p =>
        match valS p.2 with
        | .ok v => if v.isNone then none else some (p.1, v)
        | .error _ => none))) := by
  have h := dictGo_all_ok keyS valS entries hk hv
  simp [dictionaryReadWith, h, Except.map]

/-- Witness for C10 with String keys and an optional String value schema:
the entry whose value validates to None is dropped, the other is kept. -/
theorem c10_dictionary_drops_none_witness :
    dictionaryReadWith stringReadWith (optionalReadWith stringReadWith)
      (.dict [(.str "a", .str "x"), (.str "b", .none)]) =
      .ok (.dict [(.str "a", .str "x")]) := by
  have h := c10_dictionary_drops_none stringReadWith (optionalReadWith stringReadWith)
    [(.str "a", .str "x"), (.str "b", .none)]
    (by intro p hp; simp at hp; rcases hp with h | h <;> simp [h, stringReadWith])
    (by intro p hp; simp at hp; rcases hp with h | h <;>
      simp [h, optionalReadWith, stringReadWith])
  simpa [optionalReadWith, stringReadWith, PyVal.isNone] using h

/-- Prune returns none exactly when the filter keeps nothing. -/
theorem prune_eq_none_iff (m : MatchGroup) (ci : ParsedCapability → DID → Bool) :
    m.prune ci = Option.none ↔
      m.matched.filter (fun x => !rejectedBy ci x) = [] := by
  unfold MatchGroup.prune
  cases m.matched.filter (fun x => !rejectedBy ci x) <;> simp

/-- Membership in the pruned group is membership in the filtered list. -/
theorem prune_mem_iff (m : MatchGroup) (ci : ParsedCapability → DID → Bool)
    (sm : SubMatch) :
    (∃ g, m.prune ci = some g ∧ sm ∈ g.matched) ↔
      sm ∈ m.matched.filter (fun x => !rejectedBy ci x) := by
  unfold MatchGroup.prune
  cases m.matched.filter (fun x => !rejectedBy ci x) with
  | nil => simp
  | cons s rest => simp

/-- Claim C5: prune removes exactly those matches whose terminal proof is a
self-delegation that CanIssue rejects — a match survives pruning if and
only if it was present and not so rejected — and prune returns none if and
only if no match survives; in particular, when at least one match survives,
prune returns a non-none group containing it. -/
theorem c5_prune_removes_rejected (m : MatchGroup)
    (ci : ParsedCapability → DID → Bool) :
    (∀ sm, (∃ g, m.prune ci = some g ∧ sm ∈ g.matched) ↔
      (sm ∈ m.matched ∧ rejectedBy ci sm = false)) ∧
    (m.prune ci = Option.none ↔ ∀ sm ∈ m.matched, rejectedBy ci sm = true) := by
  constructor
  · intro sm
    rw [prune_mem_iff, List.mem_filter]
    simp [Bool.not_eq_true']
  · rw [prune_eq_none_iff, List.filter_eq_nil_iff]
    simp [Bool.not_eq_true']

/-- Witness for C5: a group with one surviving match and one rejected
self-granted match prunes to a group keeping exactly the survivor. -/
theorem c5_prune_removes_rejected_witness :
    (∃ g, (MatchGroup.mk
        [⟨⟨"store/add", "did:key:s", []⟩, .mk 3 "did:a" "did:a" [] 10 Option.none []⟩,
         ⟨⟨"store/add", "did:key:t", []⟩, .mk 4 "did:b" "did:c" [] 10 Option.none []⟩]).prune
        (fun _ _ => false) = some g ∧
      (⟨⟨"store/add", "did:key:t", []⟩,
        .mk 4 "did:b" "did:c" [] 10 Option.none []⟩ : SubMatch) ∈ g.matched) ∧
    ¬ (∃ g, (MatchGroup.mk
        [⟨⟨"store/add", "did:key:s", []⟩, .mk 3 "did:a" "did:a" [] 10 Option.none []⟩,
         ⟨⟨"store/add", "did:key:t", []⟩, .mk 4 "did:b" "did:c" [] 10 Option.none []⟩]).prune
        (fun _ _ => false) = some g ∧
      (⟨⟨"store/add", "did:key:s", []⟩,
        .mk 3 "did:a" "did:a" [] 10 Option.none []⟩ : SubMatch) ∈ g.matched) := by
  constructor
  · exact ((c5_prune_removes_rejected _ _).1 _).mpr
      ⟨List.mem_cons_of_mem _ (List.mem_cons_self _ _), rfl⟩
  · intro h
    have := ((c5_prune_removes_rejected _ _).1 _).mp h
    simp [rejectedBy, terminalSelfDelegation, Delegation.proofs, Delegation.issuer,
      Delegation.audience] at this

/-- Claim C6: parse yields either a match or an InvalidCapability whose
name is exactly UnknownCapability (the ability is not the one this parser
recognizes) or MalformedCapability (the ability is recognized but the
resource or caveats fail structural decoding); no other failure kind is
produced. -/
theorem c6_parse_classification (desc : Descriptor) (c : Capability) :
    (∃ v, parseCapability desc c = .ok v) ∨
    (parseCapability desc c = .error ⟨.unknownCapability, c⟩ ∧ c.can ≠ desc.can) ∨
    (parseCapability desc c = .error ⟨.malformedCapability, c⟩ ∧ c.can = desc.can ∧
      (desc.readWith c.with_ = false ∨ desc.readNb c.nb = Option.none)) := by
  by_cases h1 : c.can = desc.can
  · by_cases h2 : desc.readWith c.with_ = true
    · by_cases h3 : desc.readNb c.nb = Option.none
      · exact Or.inr (Or.inr ⟨by simp [parseCapability, h1, h2, h3], h1, Or.inr h3⟩)
      · obtain ⟨nb, hnb⟩ := Option.ne_none_iff_exists'.mp h3
        exact Or.inl ⟨⟨c.can, c.with_, nb⟩, by simp [parseCapability, h1, h2, hnb]⟩
    · have h2' : desc.readWith c.with_ = false := Bool.eq_false_iff.mpr h2
      exact Or.inr (Or.inr ⟨by simp [parseCapability, h1, h2'], h1, Or.inl h2'⟩)
  · exact Or.inr (Or.inl ⟨by simp [parseCapability, h1], h1⟩)

/-- Claim C2: every expected authorization outcome is delivered as a value
inside the ok channel of the checked entry point — an Authorization or an
Unauthorized — and the only failure ever thrown is the misconfiguration of
a missing capability parser, never an error of the section-7 taxonomy. -/
theorem c2_outcomes_as_values (claim : ParsedCapability)
    (raw : RawValidationOptions) (fuel : Nat) (d : Delegation) :
    (∀ t, validateChecked claim raw fuel d = .error t →
      (∃ m, t = Thrown.misconfiguration m) ∧ raw.capability = Option.none) ∧
    (raw.capability ≠ Option.none →
      ∃ r, validateChecked claim raw fuel d = .ok r) := by
  unfold validateChecked checkOptions
  cases hcap : raw.capability with
  | none =>
    refine ⟨?_, fun hne => absurd rfl hne⟩
    intro t ht
    have ht' : (Except.error (Thrown.misconfiguration
        "ValidationOptions is missing the required capability parser") :
        Except Thrown (Except Unauthorized Authorization)) = .error t := ht
    exact ⟨⟨_, (Except.error.inj ht').symm⟩, rfl⟩
  | some pol =>
    refine ⟨?_, fun _ => ⟨_, rfl⟩⟩
    intro t ht
    have ht' : (Except.ok (validate claim
        ⟨pol, raw.principal, raw.canIssue.getD (fun _ _ => false),
          raw.resolve.getD (fun _ => Option.none), raw.now⟩ fuel d) :
        Except Thrown (Except Unauthorized Authorization)) = .error t := ht
    simp at ht'

/-- Witness for C2: with the parser present the entry point returns an
outcome value; with the parser missing it throws the misconfiguration. -/
theorem c2_outcomes_as_values_witness :
    (∃ r, validateChecked ⟨"store/add", "did:key:s", []⟩
      ⟨Option.some ⟨fun c => .ok ⟨c.can, c.with_, []⟩, fun a b => decide (a = b)⟩,
        id, Option.none, Option.none, 0⟩ 1
      (.mk 1 "did:a" "did:b" [] 10 Option.none []) = .ok r) ∧
    ((∃ m, (Thrown.misconfiguration
        "ValidationOptions is missing the required capability parser" : Thrown) =
        Thrown.misconfiguration m) ∧
      (⟨Option.none, id, Option.none, Option.none, 0⟩ :
        RawValidationOptions).capability = Option.none) := by
  constructor
  · exact (c2_outcomes_as_values ⟨"store/add", "did:key:s", []⟩
      ⟨Option.some ⟨fun c => .ok ⟨c.can, c.with_, []⟩, fun a b => decide (a = b)⟩,
        id, Option.none, Option.none, 0⟩ 1
      (.mk 1 "did:a" "did:b" [] 10 Option.none [])).2 (by simp)
  · exact (c2_outcomes_as_values ⟨"store/add", "did:key:s", []⟩
      ⟨Option.none, id, Option.none, Option.none, 0⟩ 1
      (.mk 1 "did:a" "did:b" [] 10 Option.none [])).1 _ rfl

/-- Self-authoritative issuers are accepted terminally by one validation
layer, with an empty proofs list, whatever the recursion does. -/
theorem validateStep_self_authority (claim : ParsedCapability)
    (opts : ValidationOptions) (recurse : Delegation → BranchResult)
    (d : Delegation) (v : ParsedCapability) (rest : List ParsedCapability)
    (hcons : (selectCaps opts claim d.capabilities).matched = v :: rest)
    (ht : timeValid d opts.now = true)
    (hc : opts.canIssue claim d.issuer = true) :
    validateStep claim opts recurse d = .ok (.mk d v [] d.issuer d.audience) := by
  unfold validateStep
  simp [hcons, ht, hc]

/-- Counterexample to claim C3 as stated: a delegation that carries no
capability matching the claim is rejected even though CanIssue accepts
(claim, issuer) — validate returns Unauthorized, not an Authorization. -/
theorem c3_self_authority_counterexample :
    ((⟨⟨fun c => .error ⟨.unknownCapability, c⟩, fun _ _ => true⟩,
        id, fun _ _ => true, fun _ => Option.none, 0⟩ :
      ValidationOptions).canIssue ⟨"store/add", "did:key:s", []⟩
        (Delegation.mk 1 "did:a" "did:b" [] 10 Option.none []).issuer = true) ∧
    validate ⟨"store/add", "did:key:s", []⟩
      ⟨⟨fun c => .error ⟨.unknownCapability, c⟩, fun _ _ => true⟩,
        id, fun _ _ => true, fun _ => Option.none, 0⟩ 1
      (Delegation.mk 1 "did:a" "did:b" [] 10 Option.none []) =
      .error (.mk [] [] [] []) :=
  ⟨rfl, rfl⟩

/-- Claim C3 as amended: if additionally the delegation is time-valid and
carries a capability whose parsed value covers the claim, then CanIssue
accepting (claim, delegation.issuer) makes validation succeed with a
terminal Authorization whose proofs list is empty — even when
delegation.proofs is empty, and at every depth bound. -/
theorem c3_self_authority (claim : ParsedCapability) (opts : ValidationOptions)
    (fuel : Nat) (d : Delegation)
    (hm : (selectCaps opts claim d.capabilities).matched ≠ [])
    (ht : timeValid d opts.now = true)
    (hc : opts.canIssue claim d.issuer = true) :
    ∃ v rest, (selectCaps opts claim d.capabilities).matched = v :: rest ∧
      validate claim opts fuel d = .ok (.mk d v [] d.issuer d.audience) := by
  obtain ⟨v, rest, hcons⟩ := List.exists_cons_of_ne_nil hm
  refine ⟨v, rest, hcons, ?_⟩
  cases fuel with
  | zero => exact validateStep_self_authority claim opts _ d v rest hcons ht hc
  | succ f => exact validateStep_self_authority claim opts _ d v rest hcons ht hc

/-- Witness for C3 as amended: a proofless delegation whose issuer is
self-authoritative validates to a terminal Authorization. -/
theorem c3_self_authority_witness :
    ∃ v rest,
      (selectCaps
        ⟨⟨fun c => .ok ⟨c.can, c.with_, []⟩, fun a b => decide (a = b)⟩,
          id, fun _ iss => decide (iss = "did:s"), fun _ => Option.none, 0⟩
        ⟨"store/add", "did:key:s", []⟩
        (Delegation.mk 1 "did:s" "did:u"
          [⟨"store/add", "did:key:s", Option.none⟩] 10 Option.none []).capabilities).matched =
        v :: rest ∧
      validate ⟨"store/add", "did:key:s", []⟩
        ⟨⟨fun c => .ok ⟨c.can, c.with_, []⟩, fun a b => decide (a = b)⟩,
          id, fun _ iss => decide (iss = "did:s"), fun _ => Option.none, 0⟩ 1
        (Delegation.mk 1 "did:s" "did:u"
          [⟨"store/add", "did:key:s", Option.none⟩] 10 Option.none []) =
        .ok (.mk (Delegation.mk 1 "did:s" "did:u"
          [⟨"store/add", "did:key:s", Option.none⟩] 10 Option.none [])
          v []
          (Delegation.mk 1 "did:s" "did:u"
            [⟨"store/add", "did:key:s", Option.none⟩] 10 Option.none []).issuer
          (Delegation.mk 1 "did:s" "did:u"
            [⟨"store/add", "did:key:s", Option.none⟩] 10 Option.none []).audience) :=
  c3_self_authority _ _ 1 _ (by decide) (by decide) (by decide)

/-- A branch list that contains a success has a first success. -/
theorem firstOkAuth_isSome_of_mem (rs : List BranchResult) (a : Authorization)
    (hmem : Except.ok a ∈ rs) : ∃ b, firstOkAuth rs = some b := by
  induction rs with
  | nil => simp at hmem
  | cons r rest ih =>
    cases r with
    | ok b => exact ⟨b, rfl⟩
    | error e =>
      rcases List.mem_cons.mp hmem with h | h
      · simp at h
      · obtain ⟨b, hb⟩ := ih h
        exact ⟨b, by simp [firstOkAuth, hb]⟩

/-- A branch list of failures has no first success. -/
theorem firstOkAuth_none_of_all_error (rs : List BranchResult)
    (hall : ∀ r ∈ rs, ∃ e, r = .error e) : firstOkAuth rs = Option.none := by
  induction rs with
  | nil => rfl
  | cons r rest ih =>
    obtain ⟨e, he⟩ := hall r (List.mem_cons_self r rest)
    subst he
    simp [firstOkAuth, ih (fun s hs => hall s (List.mem_cons_of_mem _ hs))]

/-- When every branch fails, the two recorded-failure lists together hold
exactly one entry per branch. -/
theorem branch_failure_count (rs : List BranchResult)
    (hall : ∀ r ∈ rs, ∃ e, r = .error e) :
    (invalidProofsOf rs).length + (failedProofsOf rs).length = rs.length := by
  induction rs with
  | nil => rfl
  | cons r rest ih =>
    obtain ⟨e, he⟩ := hall r (List.mem_cons_self r rest)
    subst he
    have ih' := ih (fun s hs => hall s (List.mem_cons_of_mem _ hs))
    cases e with
    | inl ip =>
      simp only [invalidProofsOf, failedProofsOf, List.filterMap_cons] at ih' ⊢
      simp only [List.length_cons, List.length]
      omega
    | inr ic =>
      simp only [invalidProofsOf, failedProofsOf, List.filterMap_cons] at ih' ⊢
      simp only [List.length_cons, List.length]
      omega

/-- Validation at a positive depth bound is one validation layer whose
recursion validates each proof delegation at the next smaller bound. -/
theorem validate_succ_eq (claim : ParsedCapability) (opts : ValidationOptions)
    (fuel : Nat) (d : Delegation) :
    validate claim opts (fuel + 1) d =
      validateStep claim opts
        (fun pd => liftResult pd (validate claim opts fuel pd)) d := rfl

/-- The branches walked inside a positive-depth validation are exactly the
per-proof branch results. -/
theorem map_tryBranch_eq_branchOf (claim : ParsedCapability)
    (opts : ValidationOptions) (fuel : Nat) (d : Delegation) :
    d.proofs.map (tryBranch
      (fun pd => liftResult pd (validate claim opts fuel pd)) opts d) =
      d.proofs.map (branchOf claim opts fuel d) := rfl

/-- When no proof branch yields a first success, validation returns the
aggregate of every branch's recorded failure. -/
theorem validate_succ_all_fail (claim : ParsedCapability)
    (opts : ValidationOptions) (fuel : Nat) (d : Delegation)
    (v : ParsedCapability) (rest : List ParsedCapability)
    (hcons : (selectCaps opts claim d.capabilities).matched = v :: rest)
    (ht : timeValid d opts.now = true)
    (hc : opts.canIssue claim d.issuer = false)
    (hnone : firstOkAuth (d.proofs.map (branchOf claim opts fuel d)) = Option.none) :
    validate claim opts (fuel + 1) d =
      .error (.mk (selectCaps opts claim d.capabilities).capErrors
        (selectCaps opts claim d.capabilities).unknown
        (invalidProofsOf (d.proofs.map (branchOf claim opts fuel d)))
        (failedProofsOf (d.proofs.map (branchOf claim opts fuel d)))) := by
  rw [validate_succ_eq]
  unfold validateStep
  simp only [hcons, ht, hc, map_tryBranch_eq_branchOf, hnone,
    Bool.false_eq_true, if_true, if_false, eq_self_iff_true]

/-- When some proof branch yields the first success, validation succeeds
with that branch's authorization as the single proof. -/
theorem validate_succ_first_ok (claim : ParsedCapability)
    (opts : ValidationOptions) (fuel : Nat) (d : Delegation)
    (v : ParsedCapability) (rest : List ParsedCapability) (b : Authorization)
    (hcons : (selectCaps opts claim d.capabilities).matched = v :: rest)
    (ht : timeValid d opts.now = true)
    (hc : opts.canIssue claim d.issuer = false)
    (hsome : firstOkAuth (d.proofs.map (branchOf claim opts fuel d)) = some b) :
    validate claim opts (fuel + 1) d = .ok (.mk d v [b] d.issuer d.audience) := by
  rw [validate_succ_eq]
  unfold validateStep
  simp only [hcons, ht, hc, map_tryBranch_eq_branchOf, hsome,
    Bool.false_eq_true, if_true, if_false, eq_self_iff_true]

/-- Claim C1: under a matching, time-valid, non-self-authoritative
delegation with no succeeding proof branch, validate returns an
Unauthorized whose four fields together record a distinct failure for
every failing proof branch — one recorded entry per branch, each branch's
proof-level failure landing in invalid_proofs and each branch's recursive
failure landing in failed_proofs; nothing is dropped by short-circuiting. -/
theorem c1_error_completeness (claim : ParsedCapability)
    (opts : ValidationOptions) (fuel : Nat) (d : Delegation)
    (hm : (selectCaps opts claim d.capabilities).matched ≠ [])
    (ht : timeValid d opts.now = true)
    (hc : opts.canIssue claim d.issuer = false)
    (hall : ∀ p ∈ d.proofs, ∃ e, branchOf claim opts fuel d p = .error e) :
    ∃ u, validate claim opts (fuel + 1) d = .error u ∧
      u.invalid_proofs.length + u.failed_proofs.length = d.proofs.length ∧
      (∀ p ∈ d.proofs, ∀ ip, branchOf claim opts fuel d p = .error (.inl ip) →
        ip ∈ u.invalid_proofs) ∧
      (∀ p ∈ d.proofs, ∀ ic, branchOf claim opts fuel d p = .error (.inr ic) →
        ic ∈ u.failed_proofs) := by
  obtain ⟨v, rest, hcons⟩ := List.exists_cons_of_ne_nil hm
  have hall' : ∀ r ∈ d.proofs.map (branchOf claim opts fuel d), ∃ e, r = .error e := by
    intro r hr
    obtain ⟨p, hp, hpr⟩ := List.mem_map.mp hr
    obtain ⟨e, he⟩ := hall p hp
    exact ⟨e, hpr ▸ he⟩
  have hnone := firstOkAuth_none_of_all_error _ hall'
  have heq := validate_succ_all_fail claim opts fuel d v rest hcons ht hc hnone
  refine ⟨_, heq, ?_, ?_, ?_⟩
  · simp only [Unauthorized.invalid_proofs, Unauthorized.failed_proofs]
    rw [branch_failure_count _ hall', List.length_map]
  · intro p hp ip hip
    simp only [Unauthorized.invalid_proofs]
    exact List.mem_filterMap.mpr
      ⟨branchOf claim opts fuel d p, List.mem_map_of_mem _ hp, by rw [hip]⟩
  · intro p hp ic hic
    simp only [Unauthorized.failed_proofs]
    exact List.mem_filterMap.mpr
      ⟨branchOf claim opts fuel d p, List.mem_map_of_mem _ hp, by rw [hic]⟩

/-- Witness for C1: a delegation with two independently unresolvable proof
links yields an Unauthorized recording two failures — one per branch — and
the two recorded failures are distinct. -/
theorem c1_error_completeness_witness :
    (∃ u, validate ⟨"store/add", "did:key:s", []⟩
      ⟨⟨fun c => .ok ⟨c.can, c.with_, []⟩, fun a b => decide (a = b)⟩,
        id, fun _ _ => false, fun _ => Option.none, 0⟩ 1
      (Delegation.mk 1 "did:a" "did:b"
        [⟨"store/add", "did:key:s", Option.none⟩] 10 Option.none
        [.link 7, .link 8]) = .error u ∧
      u.invalid_proofs.length + u.failed_proofs.length = 2) ∧
    validate ⟨"store/add", "did:key:s", []⟩
      ⟨⟨fun c => .ok ⟨c.can, c.with_, []⟩, fun a b => decide (a = b)⟩,
        id, fun _ _ => false, fun _ => Option.none, 0⟩ 1
      (Delegation.mk 1 "did:a" "did:b"
        [⟨"store/add", "did:key:s", Option.none⟩] 10 Option.none
        [.link 7, .link 8]) =
      .error (.mk [] [] [.unavailableProof 7, .unavailableProof 8] []) ∧
    InvalidProof.unavailableProof 7 ≠ InvalidProof.unavailableProof 8 := by
  refine ⟨?_, rfl, by decide⟩
  obtain ⟨u, hu, hcount, -, -⟩ := c1_error_completeness
    ⟨"store/add", "did:key:s", []⟩
    ⟨⟨fun c => .ok ⟨c.can, c.with_, []⟩, fun a b => decide (a = b)⟩,
      id, fun _ _ => false, fun _ => Option.none, 0⟩ 0
    (Delegation.mk 1 "did:a" "did:b"
      [⟨"store/add", "did:key:s", Option.none⟩] 10 Option.none
      [.link 7, .link 8])
    (by decide) (by decide) rfl
    (by intro p hp
        simp [Delegation.proofs] at hp
        rcases hp with h | h <;> subst h <;> exact ⟨_, rfl⟩)
  exact ⟨u, hu, hcount⟩

/-- Claim C4: an unresolvable proof link is recorded as an UnavailableProof
value inside Unauthorized.invalid_proofs — returned, never raised — and it
affects only that one branch: whenever validation fails overall the
UnavailableProof entry is present, and whenever any sibling branch
authorizes, validation still succeeds. -/
theorem c4_resolver_failure_isolation (claim : ParsedCapability)
    (opts : ValidationOptions) (fuel : Nat) (d : Delegation) (l : Nat)
    (hm : (selectCaps opts claim d.capabilities).matched ≠ [])
    (ht : timeValid d opts.now = true)
    (hc : opts.canIssue claim d.issuer = false)
    (hmem : Proof.link l ∈ d.proofs)
    (hres : opts.resolve l = Option.none) :
    (∀ u, validate claim opts (fuel + 1) d = .error u →
      InvalidProof.unavailableProof l ∈ u.invalid_proofs) ∧
    ((∃ p ∈ d.proofs, ∃ a, branchOf claim opts fuel d p = .ok a) →
      ∃ b, validate claim opts (fuel + 1) d = .ok b) := by
  obtain ⟨v, rest, hcons⟩ := List.exists_cons_of_ne_nil hm
  have hbadbranch : branchOf claim opts fuel d (Proof.link l) =
      .error (.inl (.unavailableProof l)) := by
    simp only [branchOf, tryBranch, hres]
  constructor
  · intro u hu
    cases hfo : firstOkAuth (d.proofs.map (branchOf claim opts fuel d)) with
    | some a =>
      rw [validate_succ_first_ok claim opts fuel d v rest a hcons ht hc hfo] at hu
      simp at hu
    | none =>
      rw [validate_succ_all_fail claim opts fuel d v rest hcons ht hc hfo] at hu
      have hu' := Except.error.inj hu
      rw [← hu']
      simp only [Unauthorized.invalid_proofs]
      exact List.mem_filterMap.mpr
        ⟨branchOf claim opts fuel d (Proof.link l),
         List.mem_map_of_mem _ hmem, by rw [hbadbranch]⟩
  · rintro ⟨p, hp, a, ha⟩
    have hmem' : Except.ok a ∈ d.proofs.map (branchOf claim opts fuel d) :=
      ha ▸ List.mem_map_of_mem _ hp
    obtain ⟨b, hb⟩ := firstOkAuth_isSome_of_mem _ a hmem'
    exact ⟨_, validate_succ_first_ok claim opts fuel d v rest b hcons ht hc hb⟩

/-- Witness for C4: with one unresolvable link and one valid inline sibling
proof, validation succeeds via the sibling; with the unresolvable link
alone, validation fails and records UnavailableProof in invalid_proofs. -/
theorem c4_resolver_failure_isolation_witness :
    (∃ b, validate ⟨"store/add", "did:key:s", []⟩
      ⟨⟨fun c => .ok ⟨c.can, c.with_, []⟩, fun a b => decide (a = b)⟩,
        id, fun _ iss => decide (iss = "did:root"), fun _ => Option.none, 0⟩ 1
      (Delegation.mk 1 "did:a" "did:b"
        [⟨"store/add", "did:key:s", Option.none⟩] 10 Option.none
        [.link 7, .inline (.mk 2 "did:root" "did:a"
          [⟨"store/add", "did:key:s", Option.none⟩] 10 Option.none [])]) = .ok b) ∧
    (∃ u, validate ⟨"store/add", "did:key:s", []⟩
      ⟨⟨fun c => .ok ⟨c.can, c.with_, []⟩, fun a b => decide (a = b)⟩,
        id, fun _ iss => decide (iss = "did:root"), fun _ => Option.none, 0⟩ 1
      (Delegation.mk 1 "did:a" "did:b"
        [⟨"store/add", "did:key:s", Option.none⟩] 10 Option.none
        [.link 7]) = .error u ∧
      InvalidProof.unavailableProof 7 ∈ u.invalid_proofs) := by
  constructor
  · exact (c4_resolver_failure_isolation
      ⟨"store/add", "did:key:s", []⟩
      ⟨⟨fun c => .ok ⟨c.can, c.with_, []⟩, fun a b => decide (a = b)⟩,
        id, fun _ iss => decide (iss = "did:root"), fun _ => Option.none, 0⟩ 0
      (Delegation.mk 1 "did:a" "did:b"
        [⟨"store/add", "did:key:s", Option.none⟩] 10 Option.none
        [.link 7, .inline (.mk 2 "did:root" "did:a"
          [⟨"store/add", "did:key:s", Option.none⟩] 10 Option.none [])])
      7 (by decide) (by decide) (by decide)
      (List.mem_cons_self _ _) rfl).2
      ⟨.inline (.mk 2 "did:root" "did:a"
          [⟨"store/add", "did:key:s", Option.none⟩] 10 Option.none []),
        List.mem_cons_of_mem _ (List.mem_cons_self _ _), _, rfl⟩
  · exact ⟨.mk [] [] [.unavailableProof 7] [], rfl,
      (c4_resolver_failure_isolation
        ⟨"store/add", "did:key:s", []⟩
        ⟨⟨fun c => .ok ⟨c.can, c.with_, []⟩, fun a b => decide (a = b)⟩,
          id, fun _ iss => decide (iss = "did:root"), fun _ => Option.none, 0⟩ 0
        (Delegation.mk 1 "did:a" "did:b"
          [⟨"store/add", "did:key:s", Option.none⟩] 10 Option.none
          [.link 7])
        7 (by decide) (by decide) (by decide)
        (List.mem_cons_self _ _) rfl).1 _ rfl⟩

end W3up
